import Mathlib

/-!
Shallow embedding of the expression-node layer declared in
`include/clang/AST/Expr.h` (early clang AST): the expression taxonomy, the
kind-tag (`StmtClass`) machinery used by `classof`, the lvalue /
modifiable-lvalue classifiers, the integer-constant-expression evaluator and
the local side-effect predicate.

The header only declares several of the algorithms (`isLvalue`,
`isModifiableLvalue`, `isIntegerConstantExpr`, `hasLocalSideEffect`) and the
collaborating subsystems (`Stmt.h`, `Type.h', `Decl.h`); those parts are
modelled from the specification and are marked `Modelled from the spec:` in
their doc comments.  Everything else is translated directly from the header.
-/

namespace Clang

/-- An opaque source position (`SourceLocation` is a low-level value object). -/
structure SourceLocation where
  pos : Nat
deriving DecidableEq, Repr

/-- A source range with begin/end positions, as used by `getSourceRange`. -/
structure SourceRange where
  b : SourceLocation
  e : SourceLocation
deriving DecidableEq, Repr

/-- `SourceRange(Loc)`: a single point promoted to a degenerate range. -/
def SourceRange.single (l : SourceLocation) : SourceRange := ⟨l, l⟩

/-- `SourceRange()`: the default (invalid) range. -/
def SourceRange.empty : SourceRange := ⟨⟨0⟩, ⟨0⟩⟩

/-- Modelled from the spec: the opaque qualified-type handle (`QualType` of
`Type.h`, absent from the sources).  It carries the queries the classifiers
and the evaluator need: const qualification, integer bit-width and
signedness, void/array/record shape and (in)completeness. -/
inductive QualType : Type where
  | intTy (isConst : Bool) (width : Nat) (signed : Bool)
  | voidTy (isConst : Bool)
  | floatTy (isConst : Bool)
  | pointerTy (isConst : Bool) (pointee : QualType)
  | arrayTy (isConst : Bool) (elem : QualType) (size : Nat)
  | recordTy (isConst : Bool) (complete : Bool) (members : List QualType)
  | vectorTy (isConst : Bool) (elem : QualType) (numElements : Nat)
  | funTy

/-- Is the type const-qualified at its top level? -/
def QualType.isConstQualified : QualType → Bool
  | .intTy c _ _ => c
  | .voidTy c => c
  | .floatTy c => c
  | .pointerTy c _ => c
  | .arrayTy c _ _ => c
  | .recordTy c _ _ => c
  | .vectorTy c _ _ => c
  | .funTy => false

/-- Is the type an array type? -/
def QualType.isArrayType : QualType → Bool
  | .arrayTy _ _ _ => true
  | _ => false

/-- Is the type the (incomplete) void type? -/
def QualType.isVoidType : QualType → Bool
  | .voidTy _ => true
  | _ => false

/-- Is the type incomplete (void, or a record without a definition)? -/
def QualType.isIncompleteType : QualType → Bool
  | .voidTy _ => true
  | .recordTy _ complete _ => !complete
  | _ => false

/-- Is the type an integer type? -/
def QualType.isIntegerType : QualType → Bool
  | .intTy _ _ _ => true
  | _ => false

mutual
/-- Modelled from the spec: does some transitively-contained member or
element of this aggregate type carry a const qualifier?  Used by the
modifiable-lvalue check (walks the member list recursively). -/
def QualType.hasConstFields : QualType → Bool
  | .recordTy _ _ members => QualType.listHasConstMember members
  | .arrayTy _ elem _ => elem.isConstQualified || QualType.hasConstFields elem
  | _ => false

/-- Helper of `QualType.hasConstFields`: scan a member list in order,
stopping at the first violation. -/
def QualType.listHasConstMember : List QualType → Bool
  | [] => false
  | t :: ts =>
    t.isConstQualified || QualType.hasConstFields t ||
      QualType.listHasConstMember ts
end

mutual
/-- Modelled from the spec: structural compatibility of two type handles
(`Type::typesAreCompatible`, external to the sources). -/
def QualType.typesAreCompatible : QualType → QualType → Bool
  | .intTy c1 w1 s1, .intTy c2 w2 s2 => c1 == c2 && w1 == w2 && s1 == s2
  | .voidTy c1, .voidTy c2 => c1 == c2
  | .floatTy c1, .floatTy c2 => c1 == c2
  | .pointerTy c1 p1, .pointerTy c2 p2 =>
    c1 == c2 && QualType.typesAreCompatible p1 p2
  | .arrayTy c1 e1 n1, .arrayTy c2 e2 n2 =>
    c1 == c2 && n1 == n2 && QualType.typesAreCompatible e1 e2
  | .recordTy c1 k1 m1, .recordTy c2 k2 m2 =>
    c1 == c2 && k1 == k2 && QualType.listCompatible m1 m2
  | .vectorTy c1 e1 n1, .vectorTy c2 e2 n2 =>
    c1 == c2 && n1 == n2 && QualType.typesAreCompatible e1 e2
  | .funTy, .funTy => true
  | _, _ => false

/-- Member-wise compatibility of two member lists. -/
def QualType.listCompatible : List QualType → List QualType → Bool
  | [], [] => true
  | t :: ts, u :: us =>
    QualType.typesAreCompatible t u && QualType.listCompatible ts us
  | _, _ => false
end

/-- Modelled from the spec: a size in bytes for `sizeof`-of-type (the layout
query lives outside the sources; only totality matters here). -/
def QualType.sizeOfType : QualType → Nat
  | .intTy _ w _ => w / 8
  | .arrayTy _ e n => n * QualType.sizeOfType e
  | .pointerTy _ _ => 8
  | _ => 1

/-- Modelled from the spec: an alignment in bytes for `alignof`-of-type. -/
def QualType.alignOfType : QualType → Nat
  | .intTy _ w _ => w / 8
  | .arrayTy _ e _ => QualType.alignOfType e
  | .pointerTy _ _ => 8
  | _ => 1

/-- Modelled from the spec: the declaration entity a `DeclRefExpr` links to
(`Decl.h` is external).  The lvalue classifier only consumes the single
boolean capability "is this an object-lvalue-producing entity". -/
structure Decl where
  declId : Nat
  isObjectDecl : Bool
deriving DecidableEq, Repr

/-- Modelled from the spec: a field declaration; `MemberExpr`'s constructor
reads its type (`memberdecl->getType()`). -/
structure FieldDecl where
  fieldId : Nat
  ty : QualType

/-- Modelled from the spec: the accessor identifier of a vector-element
access, reduced to the list of selected component indices. -/
structure IdentifierInfo where
  components : List Nat
deriving DecidableEq, Repr

/-- `OCUVectorElementExpr::containsDuplicateElements`: some component index
is selected twice by the accessor. -/
def IdentifierInfo.containsDuplicateElements (a : IdentifierInfo) : Bool :=
  go a.components
where
  go : List Nat → Bool
    | [] => false
    | x :: xs => xs.contains x || go xs

/-- Modelled from the spec: an opaque compound statement (child of
`StmtExpr`; statement forms are out of scope). -/
structure CompoundStmt where
  stmtId : Nat
deriving DecidableEq, Repr

/-- Modelled from the spec: the totally ordered kind-tag space of `Stmt.h`
(absent from the sources).  A handful of non-expression statement kinds
precede the contiguous block of expression kinds; the first/last expression
markers bound exactly that block, as the spec's invariant requires. -/
inductive StmtClass : Type where
  | NullStmtClass
  | CompoundStmtClass
  | LabelStmtClass
  | ReturnStmtClass
  | DeclRefExprClass
  | PreDefinedExprClass
  | IntegerLiteralClass
  | CharacterLiteralClass
  | FloatingLiteralClass
  | StringLiteralClass
  | ParenExprClass
  | UnaryOperatorClass
  | SizeOfAlignOfTypeExprClass
  | ArraySubscriptExprClass
  | CallExprClass
  | MemberExprClass
  | OCUVectorElementExprClass
  | CompoundLiteralExprClass
  | ImplicitCastExprClass
  | CastExprClass
  | BinaryOperatorClass
  | ConditionalOperatorClass
  | AddrLabelExprClass
  | StmtExprClass
  | TypesCompatibleExprClass
  | ChooseExprClass
deriving DecidableEq, Repr

/-- The linear order on kind tags (the enum's underlying integer value). -/
def StmtClass.toNat : StmtClass → Nat
  | .NullStmtClass => 0
  | .CompoundStmtClass => 1
  | .LabelStmtClass => 2
  | .ReturnStmtClass => 3
  | .DeclRefExprClass => 4
  | .PreDefinedExprClass => 5
  | .IntegerLiteralClass => 6
  | .CharacterLiteralClass => 7
  | .FloatingLiteralClass => 8
  | .StringLiteralClass => 9
  | .ParenExprClass => 10
  | .UnaryOperatorClass => 11
  | .SizeOfAlignOfTypeExprClass => 12
  | .ArraySubscriptExprClass => 13
  | .CallExprClass => 14
  | .MemberExprClass => 15
  | .OCUVectorElementExprClass => 16
  | .CompoundLiteralExprClass => 17
  | .ImplicitCastExprClass => 18
  | .CastExprClass => 19
  | .BinaryOperatorClass => 20
  | .ConditionalOperatorClass => 21
  | .AddrLabelExprClass => 22
  | .StmtExprClass => 23
  | .TypesCompatibleExprClass => 24
  | .ChooseExprClass => 25

/-- Modelled from the spec: the first expression-kind marker. -/
def firstExprConstant : StmtClass := .DeclRefExprClass

/-- Modelled from the spec: the last expression-kind marker. -/
def lastExprConstant : StmtClass := .ChooseExprClass

/-- `UnaryOperator::Opcode` (declaration order of `Expr.h`). -/
inductive UnaryOp : Type where
  | PostInc | PostDec
  | PreInc | PreDec
  | AddrOf | Deref
  | Plus | Minus
  | Not | LNot
  | SizeOf | AlignOf
  | Real | Imag
  | Extension
deriving DecidableEq, Repr

/-- The enum's underlying integer value, in declaration order. -/
def UnaryOp.toNat : UnaryOp → Nat
  | .PostInc => 0
  | .PostDec => 1
  | .PreInc => 2
  | .PreDec => 3
  | .AddrOf => 4
  | .Deref => 5
  | .Plus => 6
  | .Minus => 7
  | .Not => 8
  | .LNot => 9
  | .SizeOf => 10
  | .AlignOf => 11
  | .Real => 12
  | .Imag => 13
  | .Extension => 14

/-- `UnaryOperator::isIncrementDecrementOp`: `Opc >= PostInc && Opc <= PreDec`. -/
def UnaryOp.isIncrementDecrementOp (op : UnaryOp) : Bool :=
  UnaryOp.PostInc.toNat ≤ op.toNat && op.toNat ≤ UnaryOp.PreDec.toNat

/-- `UnaryOperator::isArithmeticOp`: `Op >= Plus && Op <= LNot`. -/
def UnaryOp.isArithmeticOp (op : UnaryOp) : Bool :=
  UnaryOp.Plus.toNat ≤ op.toNat && op.toNat ≤ UnaryOp.LNot.toNat

/-- `UnaryOperator::isPostfix` (declared in the header; true for the
postfix increment/decrement forms). -/
def UnaryOp.isPostOp : UnaryOp → Bool
  | .PostInc => true
  | .PostDec => true
  | _ => false

/-- `BinaryOperator::Opcode`, listed in order of precedence. -/
inductive BinOp : Type where
  | Mul | Div | Rem
  | Add | Sub
  | Shl | Shr
  | LT | GT | LE | GE
  | EQ | NE
  | And
  | Xor
  | Or
  | LAnd
  | LOr
  | Assign | MulAssign
  | DivAssign | RemAssign
  | AddAssign | SubAssign
  | ShlAssign | ShrAssign
  | AndAssign | XorAssign
  | OrAssign
  | Comma
deriving DecidableEq, Repr

/-- The enum's underlying integer value, in declaration order. -/
def BinOp.toNat : BinOp → Nat
  | .Mul => 0
  | .Div => 1
  | .Rem => 2
  | .Add => 3
  | .Sub => 4
  | .Shl => 5
  | .Shr => 6
  | .LT => 7
  | .GT => 8
  | .LE => 9
  | .GE => 10
  | .EQ => 11
  | .NE => 12
  | .And => 13
  | .Xor => 14
  | .Or => 15
  | .LAnd => 16
  | .LOr => 17
  | .Assign => 18
  | .MulAssign => 19
  | .DivAssign => 20
  | .RemAssign => 21
  | .AddAssign => 22
  | .SubAssign => 23
  | .ShlAssign => 24
  | .ShrAssign => 25
  | .AndAssign => 26
  | .XorAssign => 27
  | .OrAssign => 28
  | .Comma => 29

/-- `BinaryOperator::isAssignmentOp`: `Opc >= Assign && Opc <= OrAssign`. -/
def BinOp.isAssignmentOp (op : BinOp) : Bool :=
  BinOp.Assign.toNat ≤ op.toNat && op.toNat ≤ BinOp.OrAssign.toNat

/-- `BinaryOperator::isCompoundAssignmentOp`:
`Opc > Assign && Opc <= OrAssign`. -/
def BinOp.isCompoundAssignmentOp (op : BinOp) : Bool :=
  BinOp.Assign.toNat < op.toNat && op.toNat ≤ BinOp.OrAssign.toNat

/-- `PreDefinedExpr::IdentType`. -/
inductive IdentType : Type where
  | Func
  | Function
  | PrettyFunction
deriving DecidableEq, Repr

/-- The expression-node taxonomy of `Expr.h` as a closed sum.  Every
constructor carries the inherited result-type handle `TR` first, followed by
the concrete class's own members in declaration order.  `BinaryOperator` and
`CompoundAssignOperator` are separate constructors that share the
`BinaryOperatorClass` kind tag, exactly as both C++ constructors pass
`BinaryOperatorClass` to `Stmt`. -/
inductive Expr : Type where
  | declRef (TR : QualType) (d : Decl) (loc : SourceLocation)
  | preDefined (TR : QualType) (loc : SourceLocation) (idType : IdentType)
  | intLit (TR : QualType) (value : Nat) (loc : SourceLocation)
  | charLit (TR : QualType) (value : Nat) (loc : SourceLocation)
  | floatLit (TR : QualType) (valueBits : Nat) (loc : SourceLocation)
  | strLit (TR : QualType) (strData : List Nat) (isWide : Bool)
      (firstTokLoc lastTokLoc : SourceLocation)
  | paren (TR : QualType) (l r : SourceLocation) (val : Expr)
  | unary (TR : QualType) (val : Expr) (opc : UnaryOp) (loc : SourceLocation)
  | sizeOfAlignOfType (TR : QualType) (isSizeof : Bool) (argTy : QualType)
      (opLoc rParenLoc : SourceLocation)
  | arraySub (TR : QualType) (base idx : Expr) (rBracketLoc : SourceLocation)
  | call (TR : QualType) (fn : Expr) (args : List Expr)
      (rParenLoc : SourceLocation)
  | member (TR : QualType) (base : Expr) (memberDecl : FieldDecl)
      (memberLoc : SourceLocation) (isArrow : Bool)
  | ocuElem (TR : QualType) (base : Expr) (accessor : IdentifierInfo)
      (accessorLoc : SourceLocation)
  | compoundLit (TR : QualType) (init : Expr)
  | implicitCast (TR : QualType) (op : Expr)
  | cast (TR : QualType) (op : Expr) (lParenLoc : SourceLocation)
  | binary (TR : QualType) (lhs rhs : Expr) (opc : BinOp)
  | compoundAssign (TR : QualType) (lhs rhs : Expr) (opc : BinOp)
      (computationType : QualType)
  | cond (TR : QualType) (c : Expr) (lhs : Option Expr) (rhs : Expr)
  | addrLabel (TR : QualType) (ampAmpLoc labelLoc : SourceLocation)
      (label : Nat)
  | stmtExpr (TR : QualType) (subStmt : CompoundStmt)
      (lParenLoc rParenLoc : SourceLocation)
  | typesCompatible (TR : QualType) (type1 type2 : QualType)
      (builtinLoc rParenLoc : SourceLocation)
  | choose (TR : QualType) (c lhs rhs : Expr)
      (builtinLoc rParenLoc : SourceLocation)

/-- `Expr::getType`: the result-type handle every node carries. -/
def Expr.getType : Expr → QualType
  | .declRef TR _ _ => TR
  | .preDefined TR _ _ => TR
  | .intLit TR _ _ => TR
  | .charLit TR _ _ => TR
  | .floatLit TR _ _ => TR
  | .strLit TR _ _ _ _ => TR
  | .paren TR _ _ _ => TR
  | .unary TR _ _ _ => TR
  | .sizeOfAlignOfType TR _ _ _ _ => TR
  | .arraySub TR _ _ _ => TR
  | .call TR _ _ _ => TR
  | .member TR _ _ _ _ => TR
  | .ocuElem TR _ _ _ => TR
  | .compoundLit TR _ => TR
  | .implicitCast TR _ => TR
  | .cast TR _ _ => TR
  | .binary TR _ _ _ => TR
  | .compoundAssign TR _ _ _ _ => TR
  | .cond TR _ _ _ => TR
  | .addrLabel TR _ _ _ => TR
  | .stmtExpr TR _ _ _ => TR
  | .typesCompatible TR _ _ _ _ => TR
  | .choose TR _ _ _ _ _ => TR

/-- `ParenExpr::ParenExpr(l, r, val)`: the constructor takes no separate
type argument; it initialises the node's type from `val->getType()`. -/
def mkParenExpr (l r : SourceLocation) (val : Expr) : Expr :=
  .paren val.getType l r val

/-- `MemberExpr::MemberExpr`: the node's type is `memberdecl->getType()`. -/
def mkMemberExpr (base : Expr) (isarrow : Bool) (memberdecl : FieldDecl)
    (l : SourceLocation) : Expr :=
  .member memberdecl.ty base memberdecl l isarrow

/-- `Stmt::getStmtClass` restricted to expressions: the kind tag each
constructor passes to the `Expr`/`Stmt` base.  Note that both
`BinaryOperator` and `CompoundAssignOperator` pass `BinaryOperatorClass`. -/
def Expr.stmtClass : Expr → StmtClass
  | .declRef _ _ _ => .DeclRefExprClass
  | .preDefined _ _ _ => .PreDefinedExprClass
  | .intLit _ _ _ => .IntegerLiteralClass
  | .charLit _ _ _ => .CharacterLiteralClass
  | .floatLit _ _ _ => .FloatingLiteralClass
  | .strLit _ _ _ _ _ => .StringLiteralClass
  | .paren _ _ _ _ => .ParenExprClass
  | .unary _ _ _ _ => .UnaryOperatorClass
  | .sizeOfAlignOfType _ _ _ _ _ => .SizeOfAlignOfTypeExprClass
  | .arraySub _ _ _ _ => .ArraySubscriptExprClass
  | .call _ _ _ _ => .CallExprClass
  | .member _ _ _ _ _ => .MemberExprClass
  | .ocuElem _ _ _ _ => .OCUVectorElementExprClass
  | .compoundLit _ _ => .CompoundLiteralExprClass
  | .implicitCast _ _ => .ImplicitCastExprClass
  | .cast _ _ _ => .CastExprClass
  | .binary _ _ _ _ => .BinaryOperatorClass
  | .compoundAssign _ _ _ _ _ => .BinaryOperatorClass
  | .cond _ _ _ _ => .ConditionalOperatorClass
  | .addrLabel _ _ _ _ => .AddrLabelExprClass
  | .stmtExpr _ _ _ _ => .StmtExprClass
  | .typesCompatible _ _ _ _ _ => .TypesCompatibleExprClass
  | .choose _ _ _ _ _ _ => .ChooseExprClass

/-- `Expr::getSourceRange`, including every subclass override of `Expr.h`. -/
def Expr.getSourceRange : Expr → SourceRange
  | .declRef _ _ loc => SourceRange.single loc
  | .preDefined _ loc _ => SourceRange.single loc
  | .intLit _ _ loc => SourceRange.single loc
  | .charLit _ _ loc => SourceRange.single loc
  | .floatLit _ _ loc => SourceRange.single loc
  | .strLit _ _ _ ftl ltl => ⟨ftl, ltl⟩
  | .paren _ l r _ => ⟨l, r⟩
  | .unary _ val opc loc =>
    if opc.isPostOp then ⟨(Expr.getSourceRange val).b, loc⟩
    else ⟨loc, (Expr.getSourceRange val).e⟩
  | .sizeOfAlignOfType _ _ _ opLoc rp => ⟨opLoc, rp⟩
  | .arraySub _ base _ rb => ⟨(Expr.getSourceRange base).b, rb⟩
  | .call _ fn _ rp => ⟨(Expr.getSourceRange fn).b, rp⟩
  | .member _ base _ mloc _ => ⟨(Expr.getSourceRange base).b, mloc⟩
  | .ocuElem _ base _ aloc => ⟨(Expr.getSourceRange base).b, aloc⟩
  | .compoundLit _ _ => SourceRange.empty
  | .implicitCast _ op => Expr.getSourceRange op
  | .cast _ op loc => ⟨loc, (Expr.getSourceRange op).e⟩
  | .binary _ lhs rhs _ =>
    ⟨(Expr.getSourceRange lhs).b, (Expr.getSourceRange rhs).e⟩
  | .compoundAssign _ lhs rhs _ _ =>
    ⟨(Expr.getSourceRange lhs).b, (Expr.getSourceRange rhs).e⟩
  | .cond _ c _ rhs => ⟨(Expr.getSourceRange c).b, (Expr.getSourceRange rhs).e⟩
  | .addrLabel _ aal ll _ => ⟨aal, ll⟩
  | .stmtExpr _ _ lp rp => ⟨lp, rp⟩
  | .typesCompatible _ _ _ bl rp => ⟨bl, rp⟩
  | .choose _ _ _ _ bl rp => ⟨bl, rp⟩

/-- `Expr::getLocStart`. -/
def Expr.getLocStart (e : Expr) : SourceLocation := e.getSourceRange.b

/-- `Expr::getLocEnd`. -/
def Expr.getLocEnd (e : Expr) : SourceLocation := e.getSourceRange.e

/-- `Expr::getExprLoc`: the preferred diagnostic location; `getLocStart` by
default, overridden by `UnaryOperator`, `ArraySubscriptExpr` and
`MemberExpr`. -/
def Expr.getExprLoc : Expr → SourceLocation
  | .unary _ _ _ loc => loc
  | .arraySub _ _ _ rb => rb
  | .member _ _ _ mloc _ => mloc
  | e => e.getLocStart

/-- The statement space: expressions are statements (`Expr` derives from
`Stmt`); the non-expression statement kinds are modelled from the spec
(statement forms other than the expression-valued one are out of scope). -/
inductive Stmt : Type where
  | nullStmt
  | compound (c : CompoundStmt)
  | label (labelId : Nat)
  | ret
  | expr (e : Expr)

/-- `Stmt::getStmtClass`. -/
def Stmt.getStmtClass : Stmt → StmtClass
  | .nullStmt => .NullStmtClass
  | .compound _ => .CompoundStmtClass
  | .label _ => .LabelStmtClass
  | .ret => .ReturnStmtClass
  | .expr e => e.stmtClass

/-- `Expr::classof(const Stmt*)`: the two-ended range test
`T->getStmtClass() >= firstExprConstant && T->getStmtClass() <= lastExprConstant`. -/
def Expr.classofStmt (T : Stmt) : Bool :=
  firstExprConstant.toNat ≤ T.getStmtClass.toNat &&
    T.getStmtClass.toNat ≤ lastExprConstant.toNat

/-- `BinaryOperator::classof(const Stmt*)`:
`T->getStmtClass() == BinaryOperatorClass`. -/
def BinaryOperator.classofStmt (T : Stmt) : Bool :=
  T.getStmtClass == .BinaryOperatorClass

/-- The opcode read by `cast<BinaryOperator>(S)->getOpcode()` on a node
whose kind tag is `BinaryOperatorClass` (both `BinaryOperator` and
`CompoundAssignOperator` nodes). -/
def Stmt.binOpcode : Stmt → Option BinOp
  | .expr (.binary _ _ _ opc) => some opc
  | .expr (.compoundAssign _ _ _ opc _) => some opc
  | _ => none

/-- `CompoundAssignOperator::classof(const Stmt*)`:
`isa<BinaryOperator>(S) && cast<BinaryOperator>(S)->isCompoundAssignmentOp()`. -/
def CompoundAssignOperator.classofStmt (S : Stmt) : Bool :=
  BinaryOperator.classofStmt S &&
    (match S.binOpcode with
     | some opc => opc.isCompoundAssignmentOp
     | none => false)

/-- `Expr::isLvalueResult`. -/
inductive IsLvalueResult : Type where
  | LV_Valid
  | LV_NotObjectType
  | LV_IncompleteVoidType
  | LV_DuplicateVectorComponents
  | LV_InvalidExpression
deriving DecidableEq, Repr

/-- `Expr::isModifiableLvalueResult`. -/
inductive IsModifiableLvalueResult : Type where
  | MLV_Valid
  | MLV_NotObjectType
  | MLV_IncompleteVoidType
  | MLV_DuplicateVectorComponents
  | MLV_InvalidExpression
  | MLV_IncompleteType
  | MLV_ConstQualified
  | MLV_ArrayType
deriving DecidableEq, Repr

/-- Modelled from the spec: `Expr::isLvalue` (declared in the header, body
absent from the sources).  Recursive structural rules, per node kind:
a declaration reference is valid iff the declaration is an object-lvalue
entity; parentheses recurse; an array subscript is valid unless its element
type is incomplete void; a dot member access recurses into the base while an
arrow form is always valid; a dereference is valid unless the pointee is
incomplete void; a vector-element access is valid unless the accessor
selects a duplicate component; string and compound literals are valid; a
conditional is valid when both branches are valid lvalues; every other kind
is an invalid expression. -/
def Expr.isLvalue : Expr → IsLvalueResult
  | .declRef _ d _ =>
    if d.isObjectDecl then .LV_Valid else .LV_InvalidExpression
  | .paren _ _ _ val => Expr.isLvalue val
  | .strLit _ _ _ _ _ => .LV_Valid
  | .arraySub TR _ _ _ =>
    if TR.isVoidType then .LV_IncompleteVoidType else .LV_Valid
  | .member _ base _ _ isArrow =>
    if isArrow then .LV_Valid else Expr.isLvalue base
  | .unary TR _ opc _ =>
    match opc with
    | .Deref => if TR.isVoidType then .LV_IncompleteVoidType else .LV_Valid
    | _ => .LV_InvalidExpression
  | .ocuElem _ _ accessor _ =>
    if accessor.containsDuplicateElements then .LV_DuplicateVectorComponents
    else .LV_Valid
  | .compoundLit _ _ => .LV_Valid
  | .cond _ _ lhs rhs =>
    match lhs with
    | some l =>
      match Expr.isLvalue l, Expr.isLvalue rhs with
      | .LV_Valid, .LV_Valid => .LV_Valid
      | _, _ => .LV_InvalidExpression
    | none => .LV_InvalidExpression
  | _ => .LV_InvalidExpression

/-- Modelled from the spec: `Expr::isModifiableLvalue` (declared in the
header, body absent from the sources).  Layered on `isLvalue`: a failure of
the base classifier is propagated verbatim; a valid lvalue is then rejected
if its type is an array type, an incomplete type, or const-qualified either
directly or through some transitively-contained member. -/
def Expr.isModifiableLvalue (e : Expr) : IsModifiableLvalueResult :=
  match e.isLvalue with
  | .LV_NotObjectType => .MLV_NotObjectType
  | .LV_IncompleteVoidType => .MLV_IncompleteVoidType
  | .LV_DuplicateVectorComponents => .MLV_DuplicateVectorComponents
  | .LV_InvalidExpression => .MLV_InvalidExpression
  | .LV_Valid =>
    if e.getType.isArrayType then .MLV_ArrayType
    else if e.getType.isIncompleteType then .MLV_IncompleteType
    else if e.getType.isConstQualified || e.getType.hasConstFields then
      .MLV_ConstQualified
    else .MLV_Valid

/-- Modelled from the spec: `Expr::hasLocalSideEffect` (declared in the
header, body absent from the sources).  True only when the node itself is an
assignment-family binary operator, an increment/decrement unary operator, or
a call; false for every other kind regardless of its children (a shallow,
single-node check). -/
def Expr.hasLocalSideEffect : Expr → Bool
  | .binary _ _ _ opc => opc.isAssignmentOp
  | .compoundAssign _ _ _ opc _ => opc.isAssignmentOp
  | .unary _ _ opc _ => opc.isIncrementDecrementOp
  | .call _ _ _ _ => true
  | _ => false

/-- Narrow an exact integer to an integer type's bit-width and signedness:
two's-complement truncation modulo `2 ^ width`, the representative then
re-signed into `[-2^(w-1), 2^(w-1))` for signed types and `[0, 2^w)` for
unsigned ones.  Non-integer types pass the value through. -/
def fitToType (t : QualType) (v : Int) : Int :=
  match t with
  | .intTy _ w signed =>
    let m : Int := v % ((2 : Int) ^ w)
    if signed then (if (2 : Int) ^ (w - 1) ≤ m then m - (2 : Int) ^ w else m)
    else m
  | _ => v

/-- The evaluation outcome at a sub-expression that is not a valid integer
constant: in strict mode the offending location is returned as a failure; in
"treat unknown as zero" mode evaluation keeps going with the value `0`. -/
def failResult (treatUnknownAsZero : Bool) (loc : SourceLocation) :
    Except SourceLocation Int :=
  if treatUnknownAsZero then .ok 0 else .error loc

/-- The arithmetic unary opcodes the evaluator folds (`+`, `-`, `~`, `!`). -/
def UnaryOp.isIceUnOp : UnaryOp → Bool
  | .Plus => true
  | .Minus => true
  | .Not => true
  | .LNot => true
  | _ => false

/-- Apply an arithmetic unary opcode under the node's result type:
two's-complement complement is `-v - 1`; logical not yields `0`/`1`. -/
def applyUnOp (t : QualType) (op : UnaryOp) (v : Int) : Int :=
  match op with
  | .Plus => fitToType t v
  | .Minus => fitToType t (-v)
  | .Not => fitToType t (-v - 1)
  | .LNot => if v = 0 then 1 else 0
  | _ => v

/-- The binary opcodes valid inside an integer constant expression: the
arithmetic, shift, relational, equality, bitwise and logical families
(everything strictly before the assignment forms and the comma). -/
def BinOp.isIceBinOp (op : BinOp) : Bool :=
  op.toNat ≤ BinOp.LOr.toNat

/-- A bitwise binary operation performed on the two's-complement bit
patterns of the operands at the result type's width. -/
def bitwiseOp (t : QualType) (f : Nat → Nat → Nat) (v1 v2 : Int) : Int :=
  match t with
  | .intTy _ w _ =>
    fitToType t (Int.ofNat (f (v1 % (2 : Int) ^ w).toNat
                              (v2 % (2 : Int) ^ w).toNat))
  | _ => 0

/-- Combine two evaluated operands under a binary opcode: full-precision
arithmetic narrowed to the result type; C truncating division/remainder,
failing on a zero divisor; shifts as multiplication/division by a power of
two; relational, equality and logical operators yielding `0`/`1`.
Assignment forms and the comma are not valid in a constant expression. -/
def combBin (z : Bool) (t : QualType) (loc : SourceLocation) (op : BinOp)
    (v1 v2 : Int) : Except SourceLocation Int :=
  match op with
  | .Mul => .ok (fitToType t (v1 * v2))
  | .Div => if v2 = 0 then failResult z loc else .ok (fitToType t (Int.tdiv v1 v2))
  | .Rem => if v2 = 0 then failResult z loc else .ok (fitToType t (Int.tmod v1 v2))
  | .Add => .ok (fitToType t (v1 + v2))
  | .Sub => .ok (fitToType t (v1 - v2))
  | .Shl => .ok (fitToType t (v1 * (2 : Int) ^ v2.toNat))
  | .Shr => .ok (fitToType t (Int.tdiv v1 ((2 : Int) ^ v2.toNat)))
  | .LT => .ok (if v1 < v2 then 1 else 0)
  | .GT => .ok (if v2 < v1 then 1 else 0)
  | .LE => .ok (if v1 ≤ v2 then 1 else 0)
  | .GE => .ok (if v2 ≤ v1 then 1 else 0)
  | .EQ => .ok (if v1 = v2 then 1 else 0)
  | .NE => .ok (if v1 = v2 then 0 else 1)
  | .And => .ok (bitwiseOp t Nat.land v1 v2)
  | .Xor => .ok (bitwiseOp t Nat.xor v1 v2)
  | .Or => .ok (bitwiseOp t Nat.lor v1 v2)
  | .LAnd => .ok (if v1 ≠ 0 ∧ v2 ≠ 0 then 1 else 0)
  | .LOr => .ok (if v1 ≠ 0 ∨ v2 ≠ 0 then 1 else 0)
  | _ => failResult z loc

/-- A cast's result: the operand value truncated/extended/re-signed per the
destination integer type; a cast to a non-integer destination is not a valid
integer constant. -/
def castResult (z : Bool) (t : QualType) (loc : SourceLocation) (v : Int) :
    Except SourceLocation Int :=
  if t.isIntegerType then .ok (fitToType t v) else failResult z loc

/-- The node kinds that are never themselves integer constants: floating and
string literals, declaration references, predefined identifiers, array
subscripts, calls, member and vector-element accesses, compound literals,
address-of-label and statement expressions (they fail immediately at their
own location). -/
def Expr.neverIce : Expr → Bool
  | .declRef _ _ _ => true
  | .preDefined _ _ _ => true
  | .floatLit _ _ _ => true
  | .strLit _ _ _ _ _ => true
  | .arraySub _ _ _ _ => true
  | .call _ _ _ _ => true
  | .member _ _ _ _ _ => true
  | .ocuElem _ _ _ _ => true
  | .compoundLit _ _ => true
  | .addrLabel _ _ _ _ => true
  | .stmtExpr _ _ _ _ => true
  | _ => false

/-- Propagate a failure of a sub-evaluation unchanged; feed a success to the
continuation (the on-first-failure propagation discipline of the
evaluator). -/
def bindEval (r : Except SourceLocation Int)
    (f : Int → Except SourceLocation Int) : Except SourceLocation Int :=
  match r with
  | .error s => .error s
  | .ok v => f v

/-- Modelled from the spec: `Expr::isIntegerConstantExpr` / `evaluateAsInt`
(declared in the header, body absent from the sources).  Computes the exact
integer value of a constant subtree, or fails with the location of the first
offending sub-expression, propagated unchanged through every recursion
level.  The boolean flag selects the "treat unknown as zero and keep going"
mode.  Integer and character literals are constant; parentheses and the
`__extension__` marker defer to the child; arithmetic unary and binary
operators evaluate their operands and apply the corresponding rule under the
node's result type; the conditional and choose forms evaluate the condition
and then only the taken branch; `sizeof`/`alignof`-of-type and the
types-compatible query are structural constants; casts narrow per the
destination type; every other kind fails at its own preferred diagnostic
location (`getExprLoc`). -/
def Expr.evaluateAsInt (z : Bool) (e : Expr) : Except SourceLocation Int :=
  match e with
  | .intLit TR v _ => .ok (fitToType TR (Int.ofNat v))
  | .charLit TR v _ => .ok (fitToType TR (Int.ofNat v))
  | .sizeOfAlignOfType TR isSz argTy _ _ =>
    .ok (fitToType TR (Int.ofNat
      (if isSz then argTy.sizeOfType else argTy.alignOfType)))
  | .typesCompatible _ t1 t2 _ _ =>
    .ok (if QualType.typesAreCompatible t1 t2 then 1 else 0)
  | .paren _ _ _ val => Expr.evaluateAsInt z val
  | .unary TR val opc loc =>
    if opc.isIceUnOp then
      bindEval (Expr.evaluateAsInt z val) (fun x => .ok (applyUnOp TR opc x))
    else if opc = .Extension then Expr.evaluateAsInt z val
    else failResult z loc
  | .implicitCast TR op =>
    bindEval (Expr.evaluateAsInt z op) (castResult z TR op.getLocStart)
  | .cast TR op loc =>
    bindEval (Expr.evaluateAsInt z op) (castResult z TR loc)
  | .binary TR lhs rhs opc =>
    if opc.isIceBinOp then
      bindEval (Expr.evaluateAsInt z lhs) (fun v1 =>
        bindEval (Expr.evaluateAsInt z rhs) (fun v2 =>
          combBin z TR lhs.getLocStart opc v1 v2))
    else failResult z lhs.getLocStart
  | .compoundAssign _ lhs _ _ _ => failResult z lhs.getLocStart
  | .cond _ c lhs rhs =>
    bindEval (Expr.evaluateAsInt z c) (fun v =>
      if v ≠ 0 then
        match lhs with
        | some l => Expr.evaluateAsInt z l
        | none => .ok v
      else Expr.evaluateAsInt z rhs)
  | .choose _ c lhs rhs _ _ =>
    bindEval (Expr.evaluateAsInt z c) (fun v =>
      if v ≠ 0 then Expr.evaluateAsInt z lhs else Expr.evaluateAsInt z rhs)
  | .declRef _ _ loc => failResult z loc
  | .preDefined _ loc _ => failResult z loc
  | .floatLit _ _ loc => failResult z loc
  | .strLit _ _ _ ftl _ => failResult z ftl
  | .arraySub _ _ _ rb => failResult z rb
  | .call _ fn _ _ => failResult z fn.getLocStart
  | .member _ _ _ mloc _ => failResult z mloc
  | .ocuElem _ base _ _ => failResult z base.getLocStart
  | .compoundLit _ _ => failResult z SourceRange.empty.b
  | .addrLabel _ aal _ _ => failResult z aal
  | .stmtExpr _ _ lp _ => failResult z lp

/-- The opcode read by `cast<UnaryOperator>(E)->getOpcode()` on a unary
operator node. -/
def Expr.unOpcode : Expr → Option UnaryOp
  | .unary _ _ opc _ => some opc
  | _ => none

/-- `CallExpr::getNumCommas`: `NumArgs ? NumArgs - 1 : 0` (the number of
commas that must have been present in the call; the method exists on call
nodes, whose argument count is the length of the argument list). -/
def Expr.getNumCommas : Expr → Nat
  | .call _ _ args _ => if args.length ≠ 0 then args.length - 1 else 0
  | _ => 0

/-- The evaluation judgment of `evaluateAsInt` presented as an inductive
relation, one rule per recursion case of the algorithm.  Two derivations for
the same immutable tree, context and flag are then two independent
evaluations, and determinism is provable as a theorem rather than holding by
notation. -/
inductive ICEval : Bool → Expr → Except SourceLocation Int → Prop where
  | intLit {z : Bool} {TR : QualType} {v : Nat} {l : SourceLocation} :
      ICEval z (.intLit TR v l) (.ok (fitToType TR (Int.ofNat v)))
  | charLit {z : Bool} {TR : QualType} {v : Nat} {l : SourceLocation} :
      ICEval z (.charLit TR v l) (.ok (fitToType TR (Int.ofNat v)))
  | sizeOfAlignOfType {z : Bool} {TR argTy : QualType} {isSz : Bool}
      {ol rp : SourceLocation} :
      ICEval z (.sizeOfAlignOfType TR isSz argTy ol rp)
        (.ok (fitToType TR (Int.ofNat
          (if isSz then argTy.sizeOfType else argTy.alignOfType))))
  | typesCompatible {z : Bool} {TR t1 t2 : QualType} {bl rp : SourceLocation} :
      ICEval z (.typesCompatible TR t1 t2 bl rp)
        (.ok (if QualType.typesAreCompatible t1 t2 then 1 else 0))
  | paren {z : Bool} {TR : QualType} {a b : SourceLocation} {val : Expr}
      {r : Except SourceLocation Int} :
      ICEval z val r → ICEval z (.paren TR a b val) r
  | unOk {z : Bool} {TR : QualType} {val : Expr} {opc : UnaryOp}
      {l : SourceLocation} {x : Int} :
      opc.isIceUnOp = true → ICEval z val (.ok x) →
      ICEval z (.unary TR val opc l) (.ok (applyUnOp TR opc x))
  | unErr {z : Bool} {TR : QualType} {val : Expr} {opc : UnaryOp}
      {l s : SourceLocation} :
      opc.isIceUnOp = true → ICEval z val (.error s) →
      ICEval z (.unary TR val opc l) (.error s)
  | unExt {z : Bool} {TR : QualType} {val : Expr} {l : SourceLocation}
      {r : Except SourceLocation Int} :
      ICEval z val r → ICEval z (.unary TR val .Extension l) r
  | unBad {z : Bool} {TR : QualType} {val : Expr} {opc : UnaryOp}
      {l : SourceLocation} :
      opc.isIceUnOp = false → opc ≠ .Extension →
      ICEval z (.unary TR val opc l) (failResult z l)
  | icastOk {z : Bool} {TR : QualType} {op : Expr} {x : Int} :
      ICEval z op (.ok x) →
      ICEval z (.implicitCast TR op) (castResult z TR op.getLocStart x)
  | icastErr {z : Bool} {TR : QualType} {op : Expr} {s : SourceLocation} :
      ICEval z op (.error s) → ICEval z (.implicitCast TR op) (.error s)
  | castOk {z : Bool} {TR : QualType} {op : Expr} {l : SourceLocation}
      {x : Int} :
      ICEval z op (.ok x) → ICEval z (.cast TR op l) (castResult z TR l x)
  | castErr {z : Bool} {TR : QualType} {op : Expr} {l s : SourceLocation} :
      ICEval z op (.error s) → ICEval z (.cast TR op l) (.error s)
  | binOk {z : Bool} {TR : QualType} {lhs rhs : Expr} {opc : BinOp}
      {v1 v2 : Int} :
      opc.isIceBinOp = true → ICEval z lhs (.ok v1) → ICEval z rhs (.ok v2) →
      ICEval z (.binary TR lhs rhs opc)
        (combBin z TR lhs.getLocStart opc v1 v2)
  | binLErr {z : Bool} {TR : QualType} {lhs rhs : Expr} {opc : BinOp}
      {s : SourceLocation} :
      opc.isIceBinOp = true → ICEval z lhs (.error s) →
      ICEval z (.binary TR lhs rhs opc) (.error s)
  | binRErr {z : Bool} {TR : QualType} {lhs rhs : Expr} {opc : BinOp}
      {v1 : Int} {s : SourceLocation} :
      opc.isIceBinOp = true → ICEval z lhs (.ok v1) →
      ICEval z rhs (.error s) →
      ICEval z (.binary TR lhs rhs opc) (.error s)
  | binBad {z : Bool} {TR : QualType} {lhs rhs : Expr} {opc : BinOp} :
      opc.isIceBinOp = false →
      ICEval z (.binary TR lhs rhs opc) (failResult z lhs.getLocStart)
  | caOp {z : Bool} {TR ct : QualType} {lhs rhs : Expr} {opc : BinOp} :
      ICEval z (.compoundAssign TR lhs rhs opc ct)
        (failResult z lhs.getLocStart)
  | condErr {z : Bool} {TR : QualType} {c rhs : Expr} {lhs : Option Expr}
      {s : SourceLocation} :
      ICEval z c (.error s) → ICEval z (.cond TR c lhs rhs) (.error s)
  | condTrueSome {z : Bool} {TR : QualType} {c l rhs : Expr} {v : Int}
      {r : Except SourceLocation Int} :
      ICEval z c (.ok v) → v ≠ 0 → ICEval z l r →
      ICEval z (.cond TR c (some l) rhs) r
  | condTrueNone {z : Bool} {TR : QualType} {c rhs : Expr} {v : Int} :
      ICEval z c (.ok v) → v ≠ 0 → ICEval z (.cond TR c none rhs) (.ok v)
  | condFalse {z : Bool} {TR : QualType} {c rhs : Expr} {lhs : Option Expr}
      {r : Except SourceLocation Int} :
      ICEval z c (.ok 0) → ICEval z rhs r → ICEval z (.cond TR c lhs rhs) r
  | chooseErr {z : Bool} {TR : QualType} {c lhs rhs : Expr}
      {bl rp s : SourceLocation} :
      ICEval z c (.error s) → ICEval z (.choose TR c lhs rhs bl rp) (.error s)
  | chooseTrue {z : Bool} {TR : QualType} {c lhs rhs : Expr}
      {bl rp : SourceLocation} {v : Int} {r : Except SourceLocation Int} :
      ICEval z c (.ok v) → v ≠ 0 → ICEval z lhs r →
      ICEval z (.choose TR c lhs rhs bl rp) r
  | chooseFalse {z : Bool} {TR : QualType} {c lhs rhs : Expr}
      {bl rp : SourceLocation} {r : Except SourceLocation Int} :
      ICEval z c (.ok 0) → ICEval z rhs r →
      ICEval z (.choose TR c lhs rhs bl rp) r
  | notIce {z : Bool} {e : Expr} :
      e.neverIce = true → ICEval z e (failResult z e.getExprLoc)

/-- Every derivable evaluation judgment agrees with the algorithm. -/
theorem ICEval.toEval {z : Bool} {e : Expr} {r : Except SourceLocation Int}
    (h : ICEval z e r) : Expr.evaluateAsInt z e = r := by
  induction h with
  | intLit => rfl
  | charLit => rfl
  | sizeOfAlignOfType => rfl
  | typesCompatible => rfl
  | paren _ ih => simpa [Expr.evaluateAsInt] using ih
  | unOk h1 _ ih => simp [Expr.evaluateAsInt, h1, ih, bindEval]
  | unErr h1 _ ih => simp [Expr.evaluateAsInt, h1, ih, bindEval]
  | unExt _ ih => simp [Expr.evaluateAsInt, UnaryOp.isIceUnOp, ih, bindEval]
  | unBad h1 h2 => simp [Expr.evaluateAsInt, h1, h2]
  | icastOk _ ih => simp [Expr.evaluateAsInt, ih, bindEval]
  | icastErr _ ih => simp [Expr.evaluateAsInt, ih, bindEval]
  | castOk _ ih => simp [Expr.evaluateAsInt, ih, bindEval]
  | castErr _ ih => simp [Expr.evaluateAsInt, ih, bindEval]
  | binOk h1 _ _ ih1 ih2 => simp [Expr.evaluateAsInt, h1, ih1, ih2, bindEval]
  | binLErr h1 _ ih => simp [Expr.evaluateAsInt, h1, ih, bindEval]
  | binRErr h1 _ _ ih1 ih2 =>
    simp [Expr.evaluateAsInt, h1, ih1, ih2, bindEval]
  | binBad h1 => simp [Expr.evaluateAsInt, h1]
  | caOp => rfl
  | condErr _ ih => simp [Expr.evaluateAsInt, ih, bindEval]
  | condTrueSome _ h2 _ ih1 ih3 =>
    simp [Expr.evaluateAsInt, ih1, h2, ih3, bindEval]
  | condTrueNone _ h2 ih1 => simp [Expr.evaluateAsInt, ih1, h2, bindEval]
  | condFalse _ _ ih1 ih2 => simp [Expr.evaluateAsInt, ih1, ih2, bindEval]
  | chooseErr _ ih => simp [Expr.evaluateAsInt, ih, bindEval]
  | chooseTrue _ h2 _ ih1 ih3 =>
    simp [Expr.evaluateAsInt, ih1, h2, ih3, bindEval]
  | chooseFalse _ _ ih1 ih2 => simp [Expr.evaluateAsInt, ih1, ih2, bindEval]
  | notIce h1 =>
    cases ‹Expr› <;>
      simp_all [Expr.evaluateAsInt, Expr.neverIce, Expr.getExprLoc,
        Expr.getLocStart, Expr.getSourceRange, SourceRange.single]

/-! Theorems settling the claims. -/

/-- A sample constant-expression failure: the call `f()` with no arguments,
whose callee reference sits at position 5 (so the call's own preferred
diagnostic location is position 5). -/
def egCall : Expr :=
  .call (.intTy false 32 true) (.declRef .funTy ⟨0, false⟩ ⟨5⟩) [] ⟨6⟩

/-- Narrowing an exact integer to a positive bit-width keeps its residue
modulo `2 ^ w` and lands in the type's representable interval:
`[-2^(w-1), 2^(w-1))` when signed, `[0, 2^w)` when unsigned. -/
theorem fitToType_spec (c s : Bool) (w : Nat) (v : Int) (hw : 0 < w) :
    Int.ModEq ((2 : Int) ^ w) (fitToType (.intTy c w s) v) v ∧
    (s = true → -((2 : Int) ^ (w - 1)) ≤ fitToType (.intTy c w s) v ∧
      fitToType (.intTy c w s) v < (2 : Int) ^ (w - 1)) ∧
    (s = false → 0 ≤ fitToType (.intTy c w s) v ∧
      fitToType (.intTy c w s) v < (2 : Int) ^ w) := by
  have hnpos : (0 : Int) < 2 ^ w := by positivity
  have hkpos : (0 : Int) < 2 ^ (w - 1) := by positivity
  have h2 : (2 : Int) ^ w = 2 * 2 ^ (w - 1) := by
    conv_lhs => rw [show w = (w - 1) + 1 by omega]
    rw [pow_succ]; ring
  have hm0 : 0 ≤ v % 2 ^ w := Int.emod_nonneg v (ne_of_gt hnpos)
  have hmlt : v % 2 ^ w < 2 ^ w := Int.emod_lt_of_pos v hnpos
  have hcong : Int.ModEq ((2 : Int) ^ w) (v % 2 ^ w) v :=
    Int.emod_emod_of_dvd v dvd_rfl
  have hcongs : Int.ModEq ((2 : Int) ^ w) (v % 2 ^ w - 2 ^ w) v :=
    Int.ModEq.trans (Int.modEq_iff_dvd.mpr ⟨1, by ring⟩) hcong
  cases s with
  | false =>
    have hf : fitToType (.intTy c w false) v = v % 2 ^ w := by
      simp [fitToType]
    rw [hf]
    exact ⟨hcong, by simp, fun _ => ⟨hm0, hmlt⟩⟩
  | true =>
    by_cases hle : (2 : Int) ^ (w - 1) ≤ v % 2 ^ w
    · have hf : fitToType (.intTy c w true) v = v % 2 ^ w - 2 ^ w := by
        simp [fitToType, hle]
      rw [hf]
      exact ⟨hcongs, fun _ => by constructor <;> omega, by simp⟩
    · have hf : fitToType (.intTy c w true) v = v % 2 ^ w := by
        simp [fitToType, hle]
      rw [hf]
      exact ⟨hcong, fun _ => by constructor <;> omega, by simp⟩

/-- Claim C1: a modifiable lvalue is in particular a valid lvalue — whenever
`isModifiableLvalue` answers `MLV_Valid`, `isLvalue` answers `LV_Valid` on
the same node — and the converse fails: a const-qualified variable reference
is a valid lvalue that is not a modifiable lvalue. -/
theorem isModifiableLvalue_valid_implies_isLvalue_valid :
    (∀ e : Expr, e.isModifiableLvalue = .MLV_Valid →
      e.isLvalue = .LV_Valid) ∧
    (∃ e : Expr, e.isLvalue = .LV_Valid ∧
      e.isModifiableLvalue ≠ .MLV_Valid) := by
  constructor
  · intro e h
    cases hl : e.isLvalue with
    | LV_Valid => rfl
    | LV_NotObjectType => simp [Expr.isModifiableLvalue, hl] at h
    | LV_IncompleteVoidType => simp [Expr.isModifiableLvalue, hl] at h
    | LV_DuplicateVectorComponents => simp [Expr.isModifiableLvalue, hl] at h
    | LV_InvalidExpression => simp [Expr.isModifiableLvalue, hl] at h
  · exact ⟨.declRef (.intTy true 32 true) ⟨1, true⟩ ⟨9⟩, rfl, by decide⟩

/-- Witness for claim C1 at a concrete node: a plain (non-const) `int`
variable reference is a modifiable lvalue, hence a valid lvalue. -/
theorem isModifiableLvalue_valid_implies_isLvalue_valid_witness :
    Expr.isLvalue (.declRef (.intTy false 32 true) ⟨1, true⟩ ⟨9⟩)
      = .LV_Valid :=
  isModifiableLvalue_valid_implies_isLvalue_valid.1
    (.declRef (.intTy false 32 true) ⟨1, true⟩ ⟨9⟩) (by decide)

/-- Claim C2: a cast over a constant operand re-fits the operand's value to
the destination integer type; `fitToType` is exactly two's-complement
truncation to the destination width with the destination signedness (the
result is congruent to the operand modulo `2 ^ w` and lies in the signed
resp. unsigned representable interval); concretely, casting the 64-bit value
`0x1_0000_0001` to 32-bit signed int evaluates to `1`, a 32-bit signed
literal with bit pattern `0xFFFFFFFF` reads back as `-1`, and casting it to
32-bit unsigned evaluates to `0xFFFFFFFF`. -/
theorem cast_constant_evaluation :
    (∀ (z : Bool) (TR : QualType) (op : Expr) (l : SourceLocation) (v : Int),
      Expr.evaluateAsInt z op = .ok v → TR.isIntegerType = true →
      Expr.evaluateAsInt z (.cast TR op l) = .ok (fitToType TR v)) ∧
    (∀ (c s : Bool) (w : Nat) (v : Int), 0 < w →
      Int.ModEq ((2 : Int) ^ w) (fitToType (.intTy c w s) v) v ∧
      (s = true → -((2 : Int) ^ (w - 1)) ≤ fitToType (.intTy c w s) v ∧
        fitToType (.intTy c w s) v < (2 : Int) ^ (w - 1)) ∧
      (s = false → 0 ≤ fitToType (.intTy c w s) v ∧
        fitToType (.intTy c w s) v < (2 : Int) ^ w)) ∧
    Expr.evaluateAsInt false (.cast (.intTy false 32 true)
      (.intLit (.intTy false 64 false) 4294967297 ⟨3⟩) ⟨2⟩) = .ok 1 ∧
    Expr.evaluateAsInt false (.intLit (.intTy false 32 true) 4294967295 ⟨3⟩)
      = .ok (-1) ∧
    Expr.evaluateAsInt false (.cast (.intTy false 32 false)
      (.intLit (.intTy false 32 true) 4294967295 ⟨3⟩) ⟨2⟩)
      = .ok 4294967295 := by
  refine ⟨?_, fitToType_spec, rfl, rfl, rfl⟩
  intro z TR op l v hop hint
  simp [Expr.evaluateAsInt, hop, bindEval, castResult, hint]

/-- Witness for claim C2 at a concrete cast: the general cast rule applied
to the literal `0x1_0000_0001` of type unsigned 64-bit, cast to signed
32-bit int. -/
theorem cast_constant_evaluation_witness :
    Expr.evaluateAsInt false (.cast (.intTy false 32 true)
        (.intLit (.intTy false 64 false) 4294967297 ⟨3⟩) ⟨2⟩)
      = .ok (fitToType (.intTy false 32 true) 4294967297) :=
  cast_constant_evaluation.1 false (.intTy false 32 true)
    (.intLit (.intTy false 64 false) 4294967297 ⟨3⟩) ⟨2⟩ 4294967297 rfl rfl

/-- Claim C3: when the condition of a conditional operator fails to be a
constant expression, the whole conditional fails with the very same location
(propagated unchanged, also through further wrapping); when the condition
does evaluate, only the taken branch is evaluated, the untaken branch being
arbitrary; concretely `f() ? 1 : 2` fails reporting the call's own location
even though both branches are literals. -/
theorem conditional_failure_location :
    (∀ (z : Bool) (TR : QualType) (c rhs : Expr) (lhs : Option Expr)
      (s : SourceLocation),
      Expr.evaluateAsInt z c = .error s →
      Expr.evaluateAsInt z (.cond TR c lhs rhs) = .error s) ∧
    (∀ (z : Bool) (TR : QualType) (c l rhs : Expr) (v : Int),
      Expr.evaluateAsInt z c = .ok v → v ≠ 0 →
      Expr.evaluateAsInt z (.cond TR c (some l) rhs)
        = Expr.evaluateAsInt z l) ∧
    (∀ (z : Bool) (TR : QualType) (c rhs : Expr) (lhs : Option Expr),
      Expr.evaluateAsInt z c = .ok 0 →
      Expr.evaluateAsInt z (.cond TR c lhs rhs)
        = Expr.evaluateAsInt z rhs) ∧
    Expr.evaluateAsInt false egCall = .error egCall.getExprLoc ∧
    Expr.evaluateAsInt false (.cond (.intTy false 32 true) egCall
        (some (.intLit (.intTy false 32 true) 1 ⟨7⟩))
        (.intLit (.intTy false 32 true) 2 ⟨8⟩))
      = .error egCall.getExprLoc ∧
    Expr.evaluateAsInt false (.paren (.intTy false 32 true) ⟨0⟩ ⟨9⟩
        (.cond (.intTy false 32 true) egCall
          (some (.intLit (.intTy false 32 true) 1 ⟨7⟩))
          (.intLit (.intTy false 32 true) 2 ⟨8⟩)))
      = .error egCall.getExprLoc := by
  refine ⟨?_, ?_, ?_, rfl, rfl, rfl⟩
  · intro z TR c rhs lhs s hc
    simp [Expr.evaluateAsInt, hc, bindEval]
  · intro z TR c l rhs v hc hv
    simp [Expr.evaluateAsInt, hc, bindEval, hv]
  · intro z TR c rhs lhs hc
    simp [Expr.evaluateAsInt, hc, bindEval]

/-- Witness for claim C3 at a concrete tree: the failure-propagation rule
applied to `f() ? 1 : 2` with the call at position 5. -/
theorem conditional_failure_location_witness :
    Expr.evaluateAsInt false (.cond (.intTy false 32 true) egCall
        (some (.intLit (.intTy false 32 true) 1 ⟨7⟩))
        (.intLit (.intTy false 32 true) 2 ⟨8⟩))
      = .error ⟨5⟩ :=
  conditional_failure_location.1 false (.intTy false 32 true) egCall
    (.intLit (.intTy false 32 true) 2 ⟨8⟩)
    (some (.intLit (.intTy false 32 true) 1 ⟨7⟩)) ⟨5⟩ rfl

/-- Claim C4: the downcast test to the compound-assignment variant succeeds
on a statement node exactly when the node is a binary operator whose opcode
lies strictly after `Assign` and at most at `OrAssign` in the opcode order;
on every other node it answers no-match. -/
theorem compoundAssign_classof_characterization :
    ∀ S : Stmt, CompoundAssignOperator.classofStmt S = true ↔
      (∃ opc : BinOp, S.binOpcode = some opc ∧
        BinOp.Assign.toNat < opc.toNat ∧
        opc.toNat ≤ BinOp.OrAssign.toNat) := by
  intro S
  cases S with
  | expr e =>
    cases e <;>
      simp [CompoundAssignOperator.classofStmt, BinaryOperator.classofStmt,
        Stmt.binOpcode, Stmt.getStmtClass, Expr.stmtClass,
        BinOp.isCompoundAssignmentOp]
  | nullStmt =>
    simp [CompoundAssignOperator.classofStmt, BinaryOperator.classofStmt,
      Stmt.binOpcode, Stmt.getStmtClass]
  | compound c =>
    simp [CompoundAssignOperator.classofStmt, BinaryOperator.classofStmt,
      Stmt.binOpcode, Stmt.getStmtClass]
  | label l =>
    simp [CompoundAssignOperator.classofStmt, BinaryOperator.classofStmt,
      Stmt.binOpcode, Stmt.getStmtClass]
  | ret =>
    simp [CompoundAssignOperator.classofStmt, BinaryOperator.classofStmt,
      Stmt.binOpcode, Stmt.getStmtClass]

/-- Claim C5: the expression upcast check — the two-ended range test of
`Expr::classof` against the first/last expression-kind markers — succeeds on
a statement node exactly when the node is an expression variant. -/
theorem expr_classof_range_exact :
    ∀ S : Stmt, Expr.classofStmt S = true ↔ (∃ e : Expr, S = .expr e) := by
  intro S
  cases S with
  | expr e =>
    refine ⟨fun _ => ⟨e, rfl⟩, fun _ => ?_⟩
    cases e <;> rfl
  | nullStmt =>
    constructor
    · intro h
      simp [Expr.classofStmt, Stmt.getStmtClass, StmtClass.toNat,
        firstExprConstant, lastExprConstant] at h
    · rintro ⟨e, he⟩
      exact absurd he (by simp)
  | compound c =>
    constructor
    · intro h
      simp [Expr.classofStmt, Stmt.getStmtClass, StmtClass.toNat,
        firstExprConstant, lastExprConstant] at h
    · rintro ⟨e, he⟩
      exact absurd he (by simp)
  | label l =>
    constructor
    · intro h
      simp [Expr.classofStmt, Stmt.getStmtClass, StmtClass.toNat,
        firstExprConstant, lastExprConstant] at h
    · rintro ⟨e, he⟩
      exact absurd he (by simp)
  | ret =>
    constructor
    · intro h
      simp [Expr.classofStmt, Stmt.getStmtClass, StmtClass.toNat,
        firstExprConstant, lastExprConstant] at h
    · rintro ⟨e, he⟩
      exact absurd he (by simp)

/-- Claim C6: wrapping any expression in a `ParenExpr` leaves the lvalue
classification unchanged, both for a raw `paren` node and for a node built
by the `ParenExpr` constructor. -/
theorem paren_isLvalue_identity :
    ∀ (TR : QualType) (l r : SourceLocation) (e : Expr),
      (Expr.paren TR l r e).isLvalue = e.isLvalue ∧
      (mkParenExpr l r e).isLvalue = e.isLvalue := by
  intro TR l r e
  exact ⟨rfl, rfl⟩

/-- Claim C7: the local side-effect predicate holds exactly on
assignment-family binary operators (including the compound-assignment
refinement), increment/decrement unary operators, and calls; on every other
node kind — in particular on a parenthesized wrapper of an arbitrary
subtree, side-effecting or not — it is false (a shallow, single-node
check). -/
theorem hasLocalSideEffect_characterization :
    (∀ e : Expr, e.hasLocalSideEffect = true ↔
      ((∃ opc : BinOp, Stmt.binOpcode (.expr e) = some opc ∧
          opc.isAssignmentOp = true) ∨
       (∃ opc : UnaryOp, e.unOpcode = some opc ∧
          opc.isIncrementDecrementOp = true) ∨
       e.stmtClass = .CallExprClass)) ∧
    (∀ (TR : QualType) (l r : SourceLocation) (e : Expr),
      (Expr.paren TR l r e).hasLocalSideEffect = false) := by
  constructor
  · intro e
    cases e <;>
      simp [Expr.hasLocalSideEffect, Stmt.binOpcode, Expr.unOpcode,
        Expr.stmtClass]
  · intro TR l r e
    rfl

/-- Claim C8: integer-constant evaluation is deterministic — two evaluation
derivations for the same immutable tree under the same flag agree on the
success/failure outcome, the value, and the reported location. -/
theorem evaluateAsInt_deterministic :
    ∀ (z : Bool) (e : Expr) (r1 r2 : Except SourceLocation Int),
      ICEval z e r1 → ICEval z e r2 → r1 = r2 := by
  intro z e r1 r2 h1 h2
  exact (ICEval.toEval h1).symm.trans (ICEval.toEval h2)

/-- Witness for claim C8 at a concrete tree: two derivations for the
literal `5` of type int both yield `5`. -/
theorem evaluateAsInt_deterministic_witness :
    (Except.ok (5 : Int) : Except SourceLocation Int) = .ok 5 :=
  evaluateAsInt_deterministic false
    (.intLit (.intTy false 32 true) 5 ⟨1⟩) (.ok 5) (.ok 5)
    (ICEval.intLit) (ICEval.intLit)

/-- Claim C9: the `ParenExpr` constructor takes no separate type argument;
a freshly built parenthesized node has exactly its child's type. -/
theorem mkParenExpr_type_eq_child :
    ∀ (l r : SourceLocation) (e : Expr),
      (mkParenExpr l r e).getType = e.getType := by
  intro l r e
  rfl

/-- Claim C10: on a call node, `getNumCommas` is the argument count minus
one when the call has at least one argument, and `0` — with no underflow —
when the call has none. -/
theorem getNumCommas_spec :
    ∀ (TR : QualType) (fn : Expr) (args : List Expr) (rp : SourceLocation),
      (1 ≤ args.length →
        Expr.getNumCommas (.call TR fn args rp) = args.length - 1) ∧
      (args.length = 0 → Expr.getNumCommas (.call TR fn args rp) = 0) := by
  intro TR fn args rp
  constructor
  · intro h
    simp [Expr.getNumCommas, Nat.ne_of_gt h]
  · intro h
    simp [Expr.getNumCommas, h]

/-- Witness for claim C10 at concrete calls: a one-argument call has zero
commas, and a zero-argument call has zero commas. -/
theorem getNumCommas_spec_witness :
    Expr.getNumCommas (.call (.intTy false 32 true)
        (.declRef .funTy ⟨0, false⟩ ⟨5⟩)
        [.intLit (.intTy false 32 true) 1 ⟨7⟩] ⟨6⟩) = 1 - 1 ∧
    Expr.getNumCommas (.call (.intTy false 32 true)
        (.declRef .funTy ⟨0, false⟩ ⟨5⟩) [] ⟨6⟩) = 0 :=
  ⟨(getNumCommas_spec (.intTy false 32 true) (.declRef .funTy ⟨0, false⟩ ⟨5⟩)
      [.intLit (.intTy false 32 true) 1 ⟨7⟩] ⟨6⟩).1 (by decide),
   (getNumCommas_spec (.intTy false 32 true) (.declRef .funTy ⟨0, false⟩ ⟨5⟩)
      [] ⟨6⟩).2 rfl⟩

end Clang
